import Mathlib

/-!
Verification development for the `rmf_rviz_plugin` control panel
(`src/rmf_rviz_plugin/src/RmfPanel.hpp`).

The repository fragment contains only the interface declaration of the
panel; the member-function bodies are not part of the fragment.  The data
model below follows the header (`_queued_deliveries` and `_queued_loops`
are separate vectors of `(QTime, payload)` pairs; the bookkeeping maps
`_map_fleet_to_robots`, `_map_fleet_to_graph_info`, `_map_robot_to_state`),
and each operation whose body is missing is modelled from the spec, as
stated in its doc comment.
-/

namespace RmfRvizPlugin

/-- Modelled from the spec: the Delivery task payload (one-shot
pickup-dropoff), mirroring `rmf_task_msgs::msg::Delivery`'s key fields. -/
structure Delivery where
  task_id : String
  pickup_place_name : String
  dropoff_place_name : String
deriving DecidableEq, Repr

/-- Modelled from the spec: the Loop task payload (repeating route),
mirroring `rmf_task_msgs::msg::Loop`'s key fields. -/
structure Loop where
  task_id : String
  robot_type : String
  num_loops : Nat
  start_name : String
  finish_name : String
deriving DecidableEq, Repr

/-- A `QTime` scheduled time, modelled as minutes since midnight. -/
abbrev QTime := Nat

/-- Modelled from the spec: latest known state snapshot for one robot,
mirroring `rmf_fleet_msgs::msg::RobotState`'s key fields. -/
structure RobotState where
  name : String
  model : String
  mode : Nat
deriving DecidableEq, Repr

/-- Modelled from the spec: an inbound fleet-state message
(`rmf_fleet_msgs::msg::FleetState`): a fleet name and the states of its
robots. -/
structure FleetState where
  name : String
  robots : List RobotState
deriving DecidableEq, Repr

/-- Modelled from the spec: an outbound mode-change request
(`rmf_fleet_msgs::msg::ModeRequest`). -/
structure ModeRequest where
  fleet_name : String
  robot_name : String
  mode : Nat
deriving DecidableEq, Repr

/-- `RobotMode::MODE_PAUSED` from `rmf_fleet_msgs::msg::RobotMode`. -/
def MODE_PAUSED : Nat := 3

/-- `RobotMode::MODE_MOVING` from `rmf_fleet_msgs::msg::RobotMode`. -/
def MODE_MOVING : Nat := 2

/-- Modelled from the spec: per-fleet navigation-graph metadata
(`GraphInfo` from `ParseGraph.hpp`, absent from the fragment): an ordered
list of waypoint names and the subset flagged as workcell locations. -/
structure GraphInfo where
  waypoints : List String
  workcell_names : List String
deriving DecidableEq, Repr

/-- Lookup in an association list keyed by `String`
(the shallow embedding of `std::unordered_map` access). -/
def lookupAssoc {β : Type} (k : String) : List (String × β) → Option β
  | [] => none
  | (k', v) :: rest => if k' = k then some v else lookupAssoc k rest

/-- Overwrite-or-append update of an association list
(the shallow embedding of `std::unordered_map` assignment: wholesale
overwrite, no merge). -/
def insertAssoc {β : Type} (k : String) (v : β) : List (String × β) → List (String × β)
  | [] => [(k, v)]
  | (k', v') :: rest =>
    if k' = k then (k, v) :: rest else (k', v') :: insertAssoc k v rest

/-- The panel state: the two task queues (`_queued_deliveries`,
`_queued_loops`), the three bookkeeping maps, the external graph
configuration source (fleets whose graph configuration is present and
well-formed), and the current fleet/robot selections. -/
structure RmfPanel where
  queued_deliveries : List (QTime × Delivery)
  queued_loops : List (QTime × Loop)
  map_fleet_to_robots : List (String × List String)
  map_fleet_to_graph_info : List (String × GraphInfo)
  map_robot_to_state : List (String × RobotState)
  graph_config : List (String × GraphInfo)
  selected_fleet : Option String
  selected_robot : Option String
deriving DecidableEq, Repr

/-- The panel's initial state: empty queues and empty bookkeeping maps
(graph configuration and selections are externally supplied; empty here). -/
def initial_panel : RmfPanel :=
  { queued_deliveries := []
    queued_loops := []
    map_fleet_to_robots := []
    map_fleet_to_graph_info := []
    map_robot_to_state := []
    graph_config := []
    selected_fleet := none
    selected_robot := none }

/-- Modelled from the spec: `queue(time, task)` appends — queueing a
delivery appends the `(time, delivery)` pair to `_queued_deliveries`. -/
def queue_delivery (t : QTime) (d : Delivery) (s : RmfPanel) : RmfPanel :=
  { s with queued_deliveries := s.queued_deliveries ++ [(t, d)] }

/-- Modelled from the spec: `queue(time, task)` appends — queueing a loop
appends the `(time, loop)` pair to `_queued_loops`. -/
def queue_loop (t : QTime) (l : Loop) (s : RmfPanel) : RmfPanel :=
  { s with queued_loops := s.queued_loops ++ [(t, l)] }

/-- An entry of the displayed schedule: a scheduled time paired with either
a Delivery or a Loop payload (the spec's `QueuedTask`). -/
inductive ScheduleEntry where
  | delivery (t : QTime) (d : Delivery)
  | loop (t : QTime) (l : Loop)
deriving DecidableEq, Repr

/-- The scheduled time of a schedule entry. -/
def ScheduleEntry.time : ScheduleEntry → QTime
  | .delivery t _ => t
  | .loop t _ => t

/-- Whether a schedule entry is a Delivery entry. -/
def ScheduleEntry.isDeliveryEntry : ScheduleEntry → Bool
  | .delivery _ _ => true
  | .loop _ _ => false

/-- Whether a schedule entry is a Loop entry. -/
def ScheduleEntry.isLoopEntry : ScheduleEntry → Bool
  | .delivery _ _ => false
  | .loop _ _ => true

/-- The schedule as displayed: one entry per queued task, in queue order
(the spec: "insertion order = display order"; the two queues are stored
separately in the header, rendered deliveries first). -/
def schedule_items (s : RmfPanel) : List ScheduleEntry :=
  s.queued_deliveries.map (fun p => ScheduleEntry.delivery p.1 p.2) ++
    s.queued_loops.map (fun p => ScheduleEntry.loop p.1 p.2)

/-- Modelled from the spec: remove and return the earliest-scheduled entry
that is due at/after the current time `now`, together with the remaining
list; `none` when no entry is due.  Ties are broken in favour of the
earlier-queued entry. -/
def popMinDue {α : Type} (now : QTime) : List (QTime × α) →
    Option ((QTime × α) × List (QTime × α))
  | [] => none
  | x :: xs =>
    match popMinDue now xs with
    | none => if now ≤ x.1 then some (x, xs) else none
    | some (y, ys) =>
      if now ≤ x.1 then
        if x.1 ≤ y.1 then some (x, xs) else some (y, x :: ys)
      else some (y, x :: ys)

/-- The error reported when popping from an empty (or not-due) queue. -/
inductive PopError where
  | EmptyQueue
deriving DecidableEq, Repr

/-- Modelled from the spec: `pop_delivery()` is the type-filtered variant
of pop restricted to `_queued_deliveries`: it removes and returns the
earliest-scheduled delivery due at/after `now`, or fails with
`EmptyQueue`. -/
def pop_delivery (now : QTime) (s : RmfPanel) :
    Except PopError ((QTime × Delivery) × RmfPanel) :=
  match popMinDue now s.queued_deliveries with
  | none => .error .EmptyQueue
  | some (y, ys) => .ok (y, { s with queued_deliveries := ys })

/-- Modelled from the spec: `pop_loop()` is the type-filtered variant of
pop restricted to `_queued_loops`: it removes and returns the
earliest-scheduled loop due at/after `now`, or fails with `EmptyQueue`. -/
def pop_loop (now : QTime) (s : RmfPanel) :
    Except PopError ((QTime × Loop) × RmfPanel) :=
  match popMinDue now s.queued_loops with
  | none => .error .EmptyQueue
  | some (y, ys) => .ok (y, { s with queued_loops := ys })

/-- Modelled from the spec: `pop_schedule()` (the spec's `pop_next()`)
removes and returns the earliest-scheduled entry due at/after `now` across
both queues, or fails with `EmptyQueue`.  A time tie between a due delivery
and a due loop is broken in favour of the delivery. -/
def pop_schedule (now : QTime) (s : RmfPanel) :
    Except PopError (ScheduleEntry × RmfPanel) :=
  match popMinDue now s.queued_deliveries, popMinDue now s.queued_loops with
  | none, none => .error .EmptyQueue
  | some (y, ys), none =>
    .ok (ScheduleEntry.delivery y.1 y.2, { s with queued_deliveries := ys })
  | none, some (z, zs) =>
    .ok (ScheduleEntry.loop z.1 z.2, { s with queued_loops := zs })
  | some (y, ys), some (z, zs) =>
    if y.1 ≤ z.1 then
      .ok (ScheduleEntry.delivery y.1 y.2, { s with queued_deliveries := ys })
    else
      .ok (ScheduleEntry.loop z.1 z.2, { s with queued_loops := zs })

/-- A message handed to the external messaging layer by a pop slot:
either a Delivery request (via `_delivery_pub`) or a Loop request
(via `_loop_pub`). -/
inductive Published where
  | delivery (d : Delivery)
  | loop (l : Loop)
deriving DecidableEq, Repr

/-- The observable outcome of a panel slot: the panel state afterwards,
the task-request messages published, and the user-visible report lines
(log output, not panel state). -/
structure SlotResult where
  panel : RmfPanel
  published : List Published
  log : List String

/-- Modelled from the spec: the `pop_delivery()` slot.  On success it
removes the entry and publishes the delivery request; on `EmptyQueue` it
is a no-op with a user-visible message, not a crash. -/
def pop_delivery_slot (now : QTime) (s : RmfPanel) : SlotResult :=
  match pop_delivery now s with
  | .error .EmptyQueue => ⟨s, [], ["EmptyQueue: no delivery queued"]⟩
  | .ok (e, s') => ⟨s', [Published.delivery e.2], []⟩

/-- Modelled from the spec: the `pop_loop()` slot.  On success it removes
the entry and publishes the loop request; on `EmptyQueue` it is a no-op
with a user-visible message, not a crash. -/
def pop_loop_slot (now : QTime) (s : RmfPanel) : SlotResult :=
  match pop_loop now s with
  | .error .EmptyQueue => ⟨s, [], ["EmptyQueue: no loop queued"]⟩
  | .ok (e, s') => ⟨s', [Published.loop e.2], []⟩

/-- Modelled from the spec: the `pop_schedule()` slot.  On success it
removes the earliest due entry and publishes the corresponding request;
on `EmptyQueue` it is a no-op with a user-visible message, not a crash. -/
def pop_schedule_slot (now : QTime) (s : RmfPanel) : SlotResult :=
  match pop_schedule now s with
  | .error .EmptyQueue => ⟨s, [], ["EmptyQueue: schedule is empty"]⟩
  | .ok (ScheduleEntry.delivery _ d, s') => ⟨s', [Published.delivery d], []⟩
  | .ok (ScheduleEntry.loop _ l, s') => ⟨s', [Published.loop l], []⟩

/-- Modelled from the spec: `delete(index)` removes an arbitrary entry of
the displayed schedule.  Display order is `schedule_items` (deliveries
then loops), so an index below the delivery count erases from
`_queued_deliveries` and a higher one erases from `_queued_loops`. -/
def delete_schedule_item (i : Nat) (s : RmfPanel) : RmfPanel :=
  if i < s.queued_deliveries.length then
    { s with queued_deliveries := s.queued_deliveries.eraseIdx i }
  else
    { s with queued_loops :=
        s.queued_loops.eraseIdx (i - s.queued_deliveries.length) }

/-- Modelled from the spec: `load_fleet_graph_info(fleet_name)` looks up or
lazily parses graph configuration for a fleet; returns empty if the fleet
is unknown or configuration is missing/malformed (such fleets are absent
from `graph_config`).  Declared `const` in the header, so it is embedded as
a pure function of the panel state. -/
def load_fleet_graph_info (s : RmfPanel) (fleet_name : String) : Option GraphInfo :=
  match lookupAssoc fleet_name s.map_fleet_to_graph_info with
  | some gi => some gi
  | none => lookupAssoc fleet_name s.graph_config

/-- A call to the `const` member `load_fleet_graph_info`: the returned
optional together with the panel state after the call. -/
def load_fleet_graph_info_call (s : RmfPanel) (fleet_name : String) :
    Option GraphInfo × RmfPanel :=
  (load_fleet_graph_info s fleet_name, s)

/-- Modelled from the spec: whether the named waypoint is flagged as a
workcell location in the given graph info. -/
def waypoint_has_workcell (waypoint_name : String) (graph_info : GraphInfo) : Bool :=
  graph_info.workcell_names.contains waypoint_name

/-- Modelled from the spec: rebuild of the end-waypoint selector contents
for a fleet.  With the workcells-only option set, only workcell-flagged
waypoints are offered; otherwise all waypoints of the fleet's graph.  When
graph info is absent the rebuild falls back to an empty list and never
throws. -/
def update_end_waypoint_selector (s : RmfPanel) (fleet : String)
    (workcells_only : Bool) : List String :=
  match load_fleet_graph_info s fleet with
  | none => []
  | some gi =>
    if workcells_only then
      gi.waypoints.filter (fun w => waypoint_has_workcell w gi)
    else
      gi.waypoints

/-- The robot names recorded for a fleet in `_map_fleet_to_robots`
(empty when the fleet is unknown). -/
def robotsOf (s : RmfPanel) (fleet : String) : List String :=
  (lookupAssoc fleet s.map_fleet_to_robots).getD []

/-- Modelled from the spec: rebuild of the robot selector contents for a
fleet, from the current fleet-to-robots index. -/
def update_robot_selector (s : RmfPanel) (fleet : String) : List String :=
  robotsOf s fleet

/-- Modelled from the spec: record one robot of a fleet-state message:
its state snapshot is overwritten wholesale in `_map_robot_to_state`, and
its name is appended to the fleet's robot list unless already present. -/
def register_robot (fleet : String) (r : RobotState) (s : RmfPanel) : RmfPanel :=
  { s with
    map_robot_to_state := insertAssoc r.name r s.map_robot_to_state
    map_fleet_to_robots :=
      insertAssoc fleet
        (if r.name ∈ robotsOf s fleet then robotsOf s fleet
         else robotsOf s fleet ++ [r.name])
        s.map_fleet_to_robots }

/-- Modelled from the spec: `_fleet_state_callback` ingests a fleet-state
message, recording every robot it mentions. -/
def fleet_state_callback (msg : FleetState) (s : RmfPanel) : RmfPanel :=
  msg.robots.foldl (fun acc r => register_robot msg.name r acc) s

/-- Process a sequence of inbound fleet-state messages in order. -/
def apply_fleet_states (ms : List FleetState) (s : RmfPanel) : RmfPanel :=
  ms.foldl (fun acc m => fleet_state_callback m acc) s

/-- Modelled from the spec: `pause_robot()` sends a mode-change request
(pause) for the currently selected robot; if no fleet/robot is selected
the operation is a no-op, reported but not fatal, and publishes nothing. -/
def pause_robot (s : RmfPanel) : RmfPanel × List ModeRequest × List String :=
  match s.selected_fleet, s.selected_robot with
  | some f, some r => (s, [⟨f, r, MODE_PAUSED⟩], [])
  | _, _ => (s, [], ["No robot selected, ignoring pause request"])

/-- Modelled from the spec: `resume_robot()` sends a mode-change request
(resume to moving) for the currently selected robot; if no fleet/robot is
selected the operation is a no-op, reported but not fatal, and publishes
nothing. -/
def resume_robot (s : RmfPanel) : RmfPanel × List ModeRequest × List String :=
  match s.selected_fleet, s.selected_robot with
  | some f, some r => (s, [⟨f, r, MODE_MOVING⟩], [])
  | _, _ => (s, [], ["No robot selected, ignoring resume request"])

/-- The entries returned by `k` successive `pop_schedule()` calls at a
fixed current time, stopping at the first `EmptyQueue`. -/
def popSeq (now : QTime) (s : RmfPanel) : Nat → List ScheduleEntry
  | 0 => []
  | k + 1 =>
    match pop_schedule now s with
    | .error _ => []
    | .ok (e, s') => e :: popSeq now s' k

@[simp]
theorem ScheduleEntry.time_delivery (t : QTime) (d : Delivery) :
    (ScheduleEntry.delivery t d).time = t := rfl

@[simp]
theorem ScheduleEntry.time_loop (t : QTime) (l : Loop) :
    (ScheduleEntry.loop t l).time = t := rfl

theorem popMinDue_due {α : Type} {now : QTime} {l : List (QTime × α)}
    {y : QTime × α} {ys : List (QTime × α)}
    (h : popMinDue now l = some (y, ys)) : now ≤ y.1 := by
  induction l generalizing y ys with
  | nil => simp [popMinDue] at h
  | cons x xs ih =>
    cases h' : popMinDue now xs with
    | none =>
      simp only [popMinDue, h'] at h
      split at h
      · cases h
        assumption
      · cases h
    | some p =>
      obtain ⟨y', ys'⟩ := p
      simp only [popMinDue, h'] at h
      split at h
      · split at h
        · cases h
          assumption
        · cases h
          exact ih h'
      · cases h
        exact ih h'

theorem popMinDue_none {α : Type} {now : QTime} {l : List (QTime × α)}
    (h : popMinDue now l = none) : ∀ z ∈ l, z.1 < now := by
  induction l with
  | nil => intro z hz; cases hz
  | cons x xs ih =>
    cases h' : popMinDue now xs with
    | none =>
      simp only [popMinDue, h'] at h
      split at h
      · cases h
      · intro z hz
        rcases List.mem_cons.mp hz with hz | hz
        · subst hz
          exact not_le.mp (by assumption)
        · exact ih h' z hz
    | some p =>
      obtain ⟨y', ys'⟩ := p
      simp only [popMinDue, h'] at h
      split at h
      · split at h <;> cases h
      · cases h

theorem popMinDue_min {α : Type} {now : QTime} {l : List (QTime × α)}
    {y : QTime × α} {ys : List (QTime × α)}
    (h : popMinDue now l = some (y, ys)) :
    ∀ z ∈ l, now ≤ z.1 → y.1 ≤ z.1 := by
  induction l generalizing y ys with
  | nil => simp [popMinDue] at h
  | cons x xs ih =>
    cases h' : popMinDue now xs with
    | none =>
      simp only [popMinDue, h'] at h
      split at h
      · cases h
        intro z hz hdue
        rcases List.mem_cons.mp hz with hz | hz
        · subst hz; exact le_refl _
        · exact absurd hdue (not_le.mpr (popMinDue_none h' z hz))
      · cases h
    | some p =>
      obtain ⟨y', ys'⟩ := p
      simp only [popMinDue, h'] at h
      split at h
      · split at h
        · cases h
          intro z hz hdue
          rcases List.mem_cons.mp hz with hz | hz
          · subst hz; exact le_refl _
          · exact le_trans (by assumption) (ih h' z hz hdue)
        · cases h
          intro z hz hdue
          rcases List.mem_cons.mp hz with hz | hz
          · subst hz
            exact le_of_not_le (by assumption)
          · exact ih h' z hz hdue
      · cases h
        intro z hz hdue
        rcases List.mem_cons.mp hz with hz | hz
        · subst hz
          exact absurd hdue (by assumption)
        · exact ih h' z hz hdue

theorem popMinDue_perm {α : Type} {now : QTime} {l : List (QTime × α)}
    {y : QTime × α} {ys : List (QTime × α)}
    (h : popMinDue now l = some (y, ys)) : l.Perm (y :: ys) := by
  induction l generalizing y ys with
  | nil => simp [popMinDue] at h
  | cons x xs ih =>
    cases h' : popMinDue now xs with
    | none =>
      simp only [popMinDue, h'] at h
      split at h
      · cases h
        exact List.Perm.refl _
      · cases h
    | some p =>
      obtain ⟨y', ys'⟩ := p
      simp only [popMinDue, h'] at h
      split at h
      · split at h
        · cases h
          exact List.Perm.refl _
        · cases h
          exact ((ih h').cons x).trans (List.Perm.swap _ _ _)
      · cases h
        exact ((ih h').cons x).trans (List.Perm.swap _ _ _)

theorem pop_schedule_due {now : QTime} {s : RmfPanel} {e : ScheduleEntry}
    {s' : RmfPanel} (h : pop_schedule now s = .ok (e, s')) : now ≤ e.time := by
  unfold pop_schedule at h
  cases hd : popMinDue now s.queued_deliveries with
  | none =>
    cases hl : popMinDue now s.queued_loops with
    | none => simp only [hd, hl] at h; cases h
    | some pz =>
      obtain ⟨z, zs⟩ := pz
      simp only [hd, hl] at h
      cases h
      simpa using popMinDue_due hl
  | some py =>
    obtain ⟨y, ys⟩ := py
    cases hl : popMinDue now s.queued_loops with
    | none =>
      simp only [hd, hl] at h
      cases h
      simpa using popMinDue_due hd
    | some pz =>
      obtain ⟨z, zs⟩ := pz
      simp only [hd, hl] at h
      split at h
      · cases h
        simpa using popMinDue_due hd
      · cases h
        simpa using popMinDue_due hl

theorem pop_schedule_min {now : QTime} {s : RmfPanel} {e : ScheduleEntry}
    {s' : RmfPanel} (h : pop_schedule now s = .ok (e, s')) :
    ∀ e' ∈ schedule_items s, now ≤ e'.time → e.time ≤ e'.time := by
  intro e' he' hdue
  rcases List.mem_append.mp he' with hm | hm
  all_goals obtain ⟨p, hp, rfl⟩ := List.mem_map.mp hm
  all_goals simp only [ScheduleEntry.time_delivery, ScheduleEntry.time_loop] at hdue ⊢
  all_goals unfold pop_schedule at h
  all_goals cases hd : popMinDue now s.queued_deliveries with
  | none =>
    cases hl : popMinDue now s.queued_loops with
    | none => simp only [hd, hl] at h; cases h
    | some pz =>
      obtain ⟨z, zs⟩ := pz
      simp only [hd, hl] at h
      cases h
      first
      | exact absurd hdue (not_le.mpr (popMinDue_none hd p hp))
      | simpa using popMinDue_min hl p hp hdue
  | some py =>
    obtain ⟨y, ys⟩ := py
    cases hl : popMinDue now s.queued_loops with
    | none =>
      simp only [hd, hl] at h
      cases h
      first
      | simpa using popMinDue_min hd p hp hdue
      | exact absurd hdue (not_le.mpr (popMinDue_none hl p hp))
    | some pz =>
      obtain ⟨z, zs⟩ := pz
      simp only [hd, hl] at h
      split at h
      · cases h
        first
        | simpa using popMinDue_min hd p hp hdue
        | exact le_trans (by assumption) (popMinDue_min hl p hp hdue)
      · cases h
        first
        | exact le_trans (le_of_not_le (by assumption)) (popMinDue_min hd p hp hdue)
        | simpa using popMinDue_min hl p hp hdue

theorem pop_schedule_perm {now : QTime} {s : RmfPanel} {e : ScheduleEntry}
    {s' : RmfPanel} (h : pop_schedule now s = .ok (e, s')) :
    (schedule_items s).Perm (e :: schedule_items s') := by
  unfold pop_schedule at h
  cases hd : popMinDue now s.queued_deliveries with
  | none =>
    cases hl : popMinDue now s.queued_loops with
    | none => simp only [hd, hl] at h; cases h
    | some pz =>
      obtain ⟨z, zs⟩ := pz
      simp only [hd, hl] at h
      cases h
      simp only [schedule_items]
      exact (((popMinDue_perm hl).map _).append_left _).trans List.perm_middle
  | some py =>
    obtain ⟨y, ys⟩ := py
    cases hl : popMinDue now s.queued_loops with
    | none =>
      simp only [hd, hl] at h
      cases h
      simp only [schedule_items]
      exact ((popMinDue_perm hd).map _).append_right _
    | some pz =>
      obtain ⟨z, zs⟩ := pz
      simp only [hd, hl] at h
      split at h
      · cases h
        simp only [schedule_items]
        exact ((popMinDue_perm hd).map _).append_right _
      · cases h
        simp only [schedule_items]
        exact (((popMinDue_perm hl).map _).append_left _).trans List.perm_middle

theorem popSeq_mem {now : QTime} : ∀ (k : Nat) (s : RmfPanel) (e' : ScheduleEntry),
    e' ∈ popSeq now s k → e' ∈ schedule_items s ∧ now ≤ e'.time := by
  intro k
  induction k with
  | zero => intro s e' he; simp [popSeq] at he
  | succ k ih =>
    intro s e' he
    rw [popSeq] at he
    cases hp : pop_schedule now s with
    | error err => simp only [hp] at he; cases he
    | ok p =>
      obtain ⟨e, s'⟩ := p
      simp only [hp] at he
      rcases List.mem_cons.mp he with rfl | hm
      · exact ⟨(pop_schedule_perm hp).symm.subset (List.mem_cons_self _ _),
          pop_schedule_due hp⟩
      · obtain ⟨h1, h2⟩ := ih s' e' hm
        exact ⟨(pop_schedule_perm hp).symm.subset (List.mem_cons_of_mem _ h1), h2⟩

theorem popSeq_pairwise {now : QTime} : ∀ (k : Nat) (s : RmfPanel),
    List.Pairwise (fun a b => a.time ≤ b.time) (popSeq now s k) := by
  intro k
  induction k with
  | zero => intro s; simp [popSeq]
  | succ k ih =>
    intro s
    rw [popSeq]
    cases hp : pop_schedule now s with
    | error err => simp only [hp]; exact List.Pairwise.nil
    | ok p =>
      obtain ⟨e, s'⟩ := p
      simp only [hp]
      refine List.Pairwise.cons ?_ (ih s')
      intro e' he'
      obtain ⟨h1, h2⟩ := popSeq_mem k s' e' he'
      exact pop_schedule_min hp e'
        ((pop_schedule_perm hp).symm.subset (List.mem_cons_of_mem _ h1)) h2

/-- A sample Delivery payload, for concrete evaluations. -/
def exDelivery : Delivery := ⟨"d1", "pantry", "hardware"⟩

/-- A sample Loop payload, for concrete evaluations. -/
def exLoop : Loop := ⟨"l1", "tinyRobot", 2, "north", "south"⟩

/-- The spec's worked example: a Delivery queued at 10:00 (minute 600) and
a Loop queued at 09:30 (minute 570). -/
def examplePanel : RmfPanel :=
  queue_loop 570 exLoop (queue_delivery 600 exDelivery initial_panel)

/-- C1: pop operations are type-filtered over the task queue.
`pop_delivery` only ever removes and returns a Delivery entry, leaving
`_queued_loops` untouched, and `pop_loop` only ever removes and returns a
Loop entry, leaving `_queued_deliveries` untouched; in each case exactly
the returned entry is removed from the matching queue. -/
theorem C1_pop_type_filtered :
    (∀ (now : QTime) (s : RmfPanel) (e : QTime × Delivery) (s' : RmfPanel),
      pop_delivery now s = .ok (e, s') →
        s'.queued_loops = s.queued_loops ∧
        s.queued_deliveries.Perm (e :: s'.queued_deliveries)) ∧
    (∀ (now : QTime) (s : RmfPanel) (e : QTime × Loop) (s' : RmfPanel),
      pop_loop now s = .ok (e, s') →
        s'.queued_deliveries = s.queued_deliveries ∧
        s.queued_loops.Perm (e :: s'.queued_loops)) := by
  constructor
  · intro now s e s' h
    unfold pop_delivery at h
    cases hd : popMinDue now s.queued_deliveries with
    | none => simp only [hd] at h; cases h
    | some p =>
      obtain ⟨y, ys⟩ := p
      simp only [hd] at h
      cases h
      exact ⟨rfl, popMinDue_perm hd⟩
  · intro now s e s' h
    unfold pop_loop at h
    cases hl : popMinDue now s.queued_loops with
    | none => simp only [hl] at h; cases h
    | some p =>
      obtain ⟨y, ys⟩ := p
      simp only [hl] at h
      cases h
      exact ⟨rfl, popMinDue_perm hl⟩

/-- Witness for C1, at the spec's example: with a Delivery at 10:00 (600)
and a Loop at 09:30 (570) queued, `pop_delivery` returns the 10:00
Delivery (though the 09:30 Loop is earlier overall) and `pop_loop` returns
the 09:30 Loop, each leaving the other queue unchanged. -/
theorem C1_pop_type_filtered_witness :
    pop_delivery 0 examplePanel =
      .ok ((600, exDelivery), { examplePanel with queued_deliveries := [] }) ∧
    pop_loop 0 examplePanel =
      .ok ((570, exLoop), { examplePanel with queued_loops := [] }) ∧
    ({ examplePanel with queued_deliveries := [] } : RmfPanel).queued_loops =
      examplePanel.queued_loops ∧
    examplePanel.queued_deliveries.Perm
      ((600, exDelivery) ::
        ({ examplePanel with queued_deliveries := [] } : RmfPanel).queued_deliveries) := by
  refine ⟨rfl, rfl, ?_, ?_⟩
  · exact (C1_pop_type_filtered.1 0 examplePanel (600, exDelivery)
      { examplePanel with queued_deliveries := [] } rfl).1
  · exact (C1_pop_type_filtered.1 0 examplePanel (600, exDelivery)
      { examplePanel with queued_deliveries := [] } rfl).2

/-- C2: `pop_schedule()` (the spec's `pop_next()`) removes and returns the
earliest-scheduled entry due at/after the current time, and — for any
starting queue state, hence for every sequence of `queue` calls — the
entries returned by repeated calls have non-decreasing scheduled times
among entries of matching task type. -/
theorem C2_pop_next_ordering :
    (∀ (now : QTime) (s : RmfPanel) (e : ScheduleEntry) (s' : RmfPanel),
      pop_schedule now s = .ok (e, s') →
        now ≤ e.time ∧
        (∀ e' ∈ schedule_items s, now ≤ e'.time → e.time ≤ e'.time) ∧
        (schedule_items s).Perm (e :: schedule_items s')) ∧
    (∀ (now : QTime) (s : RmfPanel) (k : Nat),
      List.Pairwise (fun a b => a.time ≤ b.time)
        ((popSeq now s k).filter ScheduleEntry.isDeliveryEntry) ∧
      List.Pairwise (fun a b => a.time ≤ b.time)
        ((popSeq now s k).filter ScheduleEntry.isLoopEntry)) := by
  constructor
  · intro now s e s' h
    exact ⟨pop_schedule_due h, pop_schedule_min h, pop_schedule_perm h⟩
  · intro now s k
    exact ⟨(popSeq_pairwise k s).filter _, (popSeq_pairwise k s).filter _⟩

/-- Witness for C2, at the spec's example: from the 10:00 Delivery and the
09:30 Loop, `pop_schedule` at current time 0 returns the 09:30 Loop — the
earliest due entry — and removes exactly that entry. -/
theorem C2_pop_next_ordering_witness :
    pop_schedule 0 examplePanel =
      .ok (ScheduleEntry.loop 570 exLoop, { examplePanel with queued_loops := [] }) ∧
    (0 : QTime) ≤ (ScheduleEntry.loop 570 exLoop).time ∧
    (schedule_items examplePanel).Perm
      (ScheduleEntry.loop 570 exLoop ::
        schedule_items { examplePanel with queued_loops := [] }) := by
  refine ⟨rfl, ?_, ?_⟩
  · exact (C2_pop_next_ordering.1 0 examplePanel (ScheduleEntry.loop 570 exLoop)
      { examplePanel with queued_loops := [] } rfl).1
  · exact (C2_pop_next_ordering.1 0 examplePanel (ScheduleEntry.loop 570 exLoop)
      { examplePanel with queued_loops := [] } rfl).2.2

theorem eraseIdx_eq_take_append_drop {α : Type} :
    ∀ (l : List α) (i : Nat), l.eraseIdx i = l.take i ++ l.drop (i + 1) := by
  intro l
  induction l with
  | nil => intro i; simp [List.eraseIdx]
  | cons x xs ih =>
    intro i
    cases i with
    | zero => simp [List.eraseIdx]
    | succ i => simp [List.eraseIdx, ih i]

theorem map_eraseIdx' {α β : Type} (f : α → β) :
    ∀ (l : List α) (i : Nat), (l.eraseIdx i).map f = (l.map f).eraseIdx i := by
  intro l
  induction l with
  | nil => intro i; simp [List.eraseIdx]
  | cons x xs ih =>
    intro i
    cases i with
    | zero => simp [List.eraseIdx]
    | succ i => simp [List.eraseIdx, ih i]

theorem eraseIdx_append_left {α : Type} :
    ∀ (l₁ l₂ : List α) (i : Nat), i < l₁.length →
      (l₁ ++ l₂).eraseIdx i = l₁.eraseIdx i ++ l₂ := by
  intro l₁
  induction l₁ with
  | nil => intro l₂ i h; simp at h
  | cons x xs ih =>
    intro l₂ i h
    cases i with
    | zero => simp [List.eraseIdx]
    | succ i =>
      simp only [List.cons_append, List.eraseIdx, List.append_eq]
      rw [ih l₂ i (by simpa using h)]

theorem eraseIdx_append_right {α : Type} :
    ∀ (l₁ l₂ : List α) (i : Nat), l₁.length ≤ i →
      (l₁ ++ l₂).eraseIdx i = l₁ ++ l₂.eraseIdx (i - l₁.length) := by
  intro l₁
  induction l₁ with
  | nil => intro l₂ i h; simp
  | cons x xs ih =>
    intro l₂ i h
    cases i with
    | zero => simp at h
    | succ i =>
      simp only [List.cons_append, List.eraseIdx, List.length_cons, List.append_eq]
      rw [ih l₂ i (by simpa using h)]
      simp [Nat.succ_sub_succ]

theorem schedule_items_delete (s : RmfPanel) (i : Nat) :
    schedule_items (delete_schedule_item i s) = (schedule_items s).eraseIdx i := by
  unfold delete_schedule_item
  split
  · simp only [schedule_items]
    rw [eraseIdx_append_left _ _ i (by simpa using ‹i < s.queued_deliveries.length›),
      map_eraseIdx']
  · simp only [schedule_items]
    rw [eraseIdx_append_right _ _ i
        (by simpa using Nat.le_of_not_lt ‹¬i < s.queued_deliveries.length›),
      map_eraseIdx', List.length_map]

/-- C3: deleting index `i` from a schedule of length `n` (with `i < n`)
yields a schedule of length `n - 1` whose entries are exactly the original
entries other than the deleted one, in their original relative order
(the result is the original list with position `i` cut out). -/
theorem C3_delete_preserves_rest (s : RmfPanel) (i : Nat)
    (h : i < (schedule_items s).length) :
    (schedule_items (delete_schedule_item i s)).length =
      (schedule_items s).length - 1 ∧
    schedule_items (delete_schedule_item i s) =
      (schedule_items s).take i ++ (schedule_items s).drop (i + 1) := by
  constructor
  · rw [schedule_items_delete]
    have := List.length_eraseIdx_add_one h
    omega
  · rw [schedule_items_delete, eraseIdx_eq_take_append_drop]

/-- Witness for C3: deleting index 0 of the two-entry example schedule
leaves exactly the other entry. -/
theorem C3_delete_preserves_rest_witness :
    0 < (schedule_items examplePanel).length ∧
    (schedule_items (delete_schedule_item 0 examplePanel)).length =
      (schedule_items examplePanel).length - 1 ∧
    schedule_items (delete_schedule_item 0 examplePanel) =
      (schedule_items examplePanel).take 0 ++ (schedule_items examplePanel).drop 1 := by
  refine ⟨by decide, ?_⟩
  exact C3_delete_preserves_rest examplePanel 0 (by decide)

/-- C4: popping from an empty (type-matching) queue fails with
`EmptyQueue` as a non-fatal error: the panel state is unchanged, no task
request is published, and only a user-visible report is produced. -/
theorem C4_empty_pop_noop (now : QTime) (s : RmfPanel) :
    (s.queued_deliveries = [] →
      (pop_delivery_slot now s).panel = s ∧
      (pop_delivery_slot now s).published = []) ∧
    (s.queued_loops = [] →
      (pop_loop_slot now s).panel = s ∧
      (pop_loop_slot now s).published = []) ∧
    (s.queued_deliveries = [] → s.queued_loops = [] →
      (pop_schedule_slot now s).panel = s ∧
      (pop_schedule_slot now s).published = []) := by
  refine ⟨?_, ?_, ?_⟩
  · intro hd
    simp [pop_delivery_slot, pop_delivery, hd, popMinDue]
  · intro hl
    simp [pop_loop_slot, pop_loop, hl, popMinDue]
  · intro hd hl
    simp [pop_schedule_slot, pop_schedule, hd, hl, popMinDue]

/-- Witness for C4: on the initial panel, whose queues are empty, all
three pop slots leave the panel unchanged and publish nothing. -/
theorem C4_empty_pop_noop_witness :
    (pop_delivery_slot 0 initial_panel).panel = initial_panel ∧
    (pop_delivery_slot 0 initial_panel).published = [] ∧
    (pop_loop_slot 0 initial_panel).panel = initial_panel ∧
    (pop_loop_slot 0 initial_panel).published = [] ∧
    (pop_schedule_slot 0 initial_panel).panel = initial_panel ∧
    (pop_schedule_slot 0 initial_panel).published = [] := by
  obtain ⟨h1, h2, h3⟩ := C4_empty_pop_noop 0 initial_panel
  exact ⟨(h1 rfl).1, (h1 rfl).2, (h2 rfl).1, (h2 rfl).2,
    (h3 rfl rfl).1, (h3 rfl rfl).2⟩

theorem lookupAssoc_insertAssoc_self {β : Type} (k : String) (v : β) :
    ∀ m : List (String × β), lookupAssoc k (insertAssoc k v m) = some v := by
  intro m
  induction m with
  | nil => simp [insertAssoc, lookupAssoc]
  | cons p rest ih =>
    obtain ⟨k', v'⟩ := p
    by_cases h : k' = k
    · subst h
      simp [insertAssoc, lookupAssoc]
    · simp [insertAssoc, lookupAssoc, h, ih]

theorem lookupAssoc_insertAssoc_ne {β : Type} {k k' : String} (hne : k' ≠ k) (v : β) :
    ∀ m : List (String × β), lookupAssoc k (insertAssoc k' v m) = lookupAssoc k m := by
  intro m
  induction m with
  | nil => simp [insertAssoc, lookupAssoc, hne]
  | cons p rest ih =>
    obtain ⟨k'', v''⟩ := p
    by_cases h : k'' = k'
    · subst h
      simp [insertAssoc, lookupAssoc, hne]
    · by_cases h2 : k'' = k
      · subst h2
        simp [insertAssoc, lookupAssoc, h]
      · simp [insertAssoc, lookupAssoc, h, h2, ih]

theorem robotsOf_register_same (fleet : String) (r : RobotState) (s : RmfPanel) :
    robotsOf (register_robot fleet r s) fleet =
      if r.name ∈ robotsOf s fleet then robotsOf s fleet
      else robotsOf s fleet ++ [r.name] := by
  unfold register_robot robotsOf
  simp [lookupAssoc_insertAssoc_self]

theorem robotsOf_register_ne {fleet f : String} (hne : fleet ≠ f) (r : RobotState)
    (s : RmfPanel) : robotsOf (register_robot fleet r s) f = robotsOf s f := by
  unfold register_robot robotsOf
  simp [lookupAssoc_insertAssoc_ne hne]

theorem count_robotsOf_register_of_count_one {f fleet rn : String} {r : RobotState}
    {s : RmfPanel} (h : (robotsOf s f).count rn = 1) :
    (robotsOf (register_robot fleet r s) f).count rn = 1 := by
  by_cases hf : fleet = f
  · subst hf
    rw [robotsOf_register_same]
    split
    · exact h
    · rename_i hnm
      by_cases hrn : r.name = rn
      · subst hrn
        exact absurd (List.count_pos_iff.mp (by omega)) hnm
      · simp [List.count_append, List.count_cons, hrn, h]
  · rw [robotsOf_register_ne hf]
    exact h

theorem count_robotsOf_register_of_zero {f fleet rn : String} {r : RobotState}
    {s : RmfPanel} (h : (robotsOf s f).count rn = 0) (hne : r.name ≠ rn) :
    (robotsOf (register_robot fleet r s) f).count rn = 0 := by
  by_cases hf : fleet = f
  · subst hf
    rw [robotsOf_register_same]
    split
    · exact h
    · simp [List.count_append, List.count_cons, hne, h]
  · rw [robotsOf_register_ne hf]
    exact h

theorem count_robotsOf_register_self {f rn : String} {r : RobotState} {s : RmfPanel}
    (h : (robotsOf s f).count rn = 0) (hr : r.name = rn) :
    (robotsOf (register_robot f r s) f).count rn = 1 := by
  subst hr
  rw [robotsOf_register_same]
  rw [if_neg (List.count_eq_zero.mp h)]
  simp [List.count_append, List.count_cons, h]

theorem count_one_registerAll {f fleet rn : String} :
    ∀ (robots : List RobotState) (s : RmfPanel), (robotsOf s f).count rn = 1 →
      (robotsOf (robots.foldl (fun acc r => register_robot fleet r acc) s) f).count rn
        = 1 := by
  intro robots
  induction robots with
  | nil => intro s h; exact h
  | cons r rest ih =>
    intro s h
    rw [List.foldl_cons]
    exact ih _ (count_robotsOf_register_of_count_one h)

theorem count_one_after_registerAll {f rn : String} :
    ∀ (robots : List RobotState) (s : RmfPanel),
      (robotsOf s f).count rn = 0 → (∃ r ∈ robots, r.name = rn) →
      (robotsOf (robots.foldl (fun acc r => register_robot f r acc) s) f).count rn
        = 1 := by
  intro robots
  induction robots with
  | nil =>
    intro s h hex
    obtain ⟨r, hr, _⟩ := hex
    cases hr
  | cons r0 rest ih =>
    intro s h hex
    rw [List.foldl_cons]
    by_cases h0 : r0.name = rn
    · exact count_one_registerAll rest _ (count_robotsOf_register_self h h0)
    · obtain ⟨r, hr, hrn⟩ := hex
      rcases List.mem_cons.mp hr with rfl | hr
      · exact absurd hrn h0
      · exact ih _ (count_robotsOf_register_of_zero h h0) ⟨r, hr, hrn⟩

theorem count_one_apply_fleet_states {f rn : String} :
    ∀ (ms : List FleetState) (s : RmfPanel), (robotsOf s f).count rn = 1 →
      (robotsOf (apply_fleet_states ms s) f).count rn = 1 := by
  intro ms
  induction ms with
  | nil => intro s h; exact h
  | cons m rest ih =>
    intro s h
    unfold apply_fleet_states at *
    rw [List.foldl_cons]
    exact ih _ (count_one_registerAll m.robots s h)

/-- C6: after the fleet-state callback processes a message mentioning a
previously unseen robot, that robot's name appears in the fleet's robot
list exactly once, it still appears exactly once after any number of
further messages, and a subsequent robot-selector rebuild for the fleet
includes it. -/
theorem C6_robot_registered_once (s : RmfPanel) (msg : FleetState) (rn : String)
    (ms : List FleetState)
    (hnew : rn ∉ robotsOf s msg.name)
    (hmem : ∃ r ∈ msg.robots, r.name = rn) :
    (robotsOf (fleet_state_callback msg s) msg.name).count rn = 1 ∧
    (robotsOf (apply_fleet_states ms (fleet_state_callback msg s)) msg.name).count rn
      = 1 ∧
    rn ∈ update_robot_selector
      (apply_fleet_states ms (fleet_state_callback msg s)) msg.name := by
  have h0 : (robotsOf s msg.name).count rn = 0 := List.count_eq_zero.mpr hnew
  have h1 : (robotsOf (fleet_state_callback msg s) msg.name).count rn = 1 :=
    count_one_after_registerAll msg.robots s h0 hmem
  have h2 := count_one_apply_fleet_states ms _ h1
  refine ⟨h1, h2, ?_⟩
  unfold update_robot_selector
  exact List.count_pos_iff.mp (by omega)

/-- A sample fleet-state message mentioning one robot. -/
def exMsg : FleetState := ⟨"fleetA", [⟨"r1", "model1", 0⟩]⟩

/-- Witness for C6: from the empty panel, one message registers robot
`r1` exactly once for fleet `fleetA`; a repeat of the same message keeps
the count at one, and the rebuilt robot selector lists `r1`. -/
theorem C6_robot_registered_once_witness :
    (robotsOf (fleet_state_callback exMsg initial_panel) "fleetA").count "r1" = 1 ∧
    (robotsOf (apply_fleet_states [exMsg]
        (fleet_state_callback exMsg initial_panel)) "fleetA").count "r1" = 1 ∧
    "r1" ∈ update_robot_selector
      (apply_fleet_states [exMsg] (fleet_state_callback exMsg initial_panel))
      "fleetA" :=
  C6_robot_registered_once initial_panel exMsg "r1" [exMsg]
    (by simp [robotsOf, initial_panel, lookupAssoc, exMsg])
    ⟨⟨"r1", "model1", 0⟩, by simp [exMsg], rfl⟩

/-- The State Registry invariant of the spec: every robot name recorded in
the fleet-to-robots index has a corresponding entry in the robot-to-state
map. -/
def indexHasState (s : RmfPanel) : Prop :=
  ∀ f rn : String, rn ∈ robotsOf s f →
    (lookupAssoc rn s.map_robot_to_state).isSome

theorem mem_robotsOf_register_inv {f fleet rn : String} {r : RobotState}
    {s : RmfPanel} (h : rn ∈ robotsOf (register_robot fleet r s) f) :
    rn ∈ robotsOf s f ∨ rn = r.name := by
  by_cases hf : fleet = f
  · subst hf
    rw [robotsOf_register_same] at h
    split at h
    · exact Or.inl h
    · rcases List.mem_append.mp h with h | h
      · exact Or.inl h
      · simp at h
        exact Or.inr h
  · rw [robotsOf_register_ne hf] at h
    exact Or.inl h

theorem indexHasState_register (fleet : String) (r : RobotState) {s : RmfPanel}
    (h : indexHasState s) : indexHasState (register_robot fleet r s) := by
  intro f rn hmem
  rcases mem_robotsOf_register_inv hmem with hm | rfl
  · by_cases hr : rn = r.name
    · subst hr
      simp [register_robot, lookupAssoc_insertAssoc_self]
    · have := h f rn hm
      simpa [register_robot, lookupAssoc_insertAssoc_ne (Ne.symm hr)] using this
  · simp [register_robot, lookupAssoc_insertAssoc_self]

theorem indexHasState_callback {msg : FleetState} {s : RmfPanel}
    (h : indexHasState s) : indexHasState (fleet_state_callback msg s) := by
  unfold fleet_state_callback
  generalize msg.robots = l
  induction l generalizing s with
  | nil => exact h
  | cons r rest ih =>
    rw [List.foldl_cons]
    exact ih (indexHasState_register _ _ h)

theorem indexHasState_apply :
    ∀ (ms : List FleetState) (s : RmfPanel), indexHasState s →
      indexHasState (apply_fleet_states ms s) := by
  intro ms
  induction ms with
  | nil => intro s h; exact h
  | cons m rest ih =>
    intro s h
    unfold apply_fleet_states at *
    rw [List.foldl_cons]
    exact ih _ (indexHasState_callback h)

/-- C7: registry invariant — after any sequence of inbound fleet-state
messages (starting from the empty panel), every robot name recorded in the
fleet-to-robots index has a corresponding (possibly stale) entry in the
robot-to-state map.  In this model a robot enters the index only when a
state message mentioning it is processed, which also writes its state
entry wholesale. -/
theorem C7_registry_invariant (ms : List FleetState) (f rn : String)
    (hmem : rn ∈ robotsOf (apply_fleet_states ms initial_panel) f) :
    (lookupAssoc rn
      (apply_fleet_states ms initial_panel).map_robot_to_state).isSome := by
  refine indexHasState_apply ms initial_panel ?_ f rn hmem
  intro f' rn' hmem'
  simp [robotsOf, initial_panel, lookupAssoc] at hmem'

/-- Witness for C7: after the sample message, robot `r1` is in fleet
`fleetA`'s list and has a state entry. -/
theorem C7_registry_invariant_witness :
    "r1" ∈ robotsOf (apply_fleet_states [exMsg] initial_panel) "fleetA" ∧
    (lookupAssoc "r1"
      (apply_fleet_states [exMsg] initial_panel).map_robot_to_state).isSome :=
  ⟨by decide, C7_registry_invariant [exMsg] "fleetA" "r1" (by decide)⟩

/-- A sample graph info used in concrete evaluations: three waypoints, of
which only `pantry` is flagged as a workcell. -/
def exGraphInfo : GraphInfo := ⟨["north", "south", "pantry"], ["pantry"]⟩

/-- A panel whose graph-info cache is empty but whose external
configuration can be parsed for fleet `tinyRobot`. -/
def configOnlyPanel : RmfPanel :=
  { initial_panel with graph_config := [("tinyRobot", exGraphInfo)] }

/-- Counterexample to C5: on `configOnlyPanel` the call
`load_fleet_graph_info("tinyRobot")` succeeds (the configuration parses),
yet the fleet-to-graph-info map afterwards still has no entry for
`tinyRobot` — the member function is declared `const` in the header and
cannot insert into the non-`mutable` cache map. -/
theorem C5_cache_counterexample :
    (load_fleet_graph_info_call configOnlyPanel "tinyRobot").1 = some exGraphInfo ∧
    lookupAssoc "tinyRobot"
      (load_fleet_graph_info_call configOnlyPanel
        "tinyRobot").2.map_fleet_to_graph_info = none := by
  constructor <;> rfl

/-- C5 (amended): `load_fleet_graph_info(fleet_name)` returns an empty
optional exactly when the fleet has neither a cached graph info nor a
parseable graph configuration (unknown fleet, or missing/malformed
configuration); it returns the parsed info otherwise, but — being a
`const` member — it does not itself install the parse into the
fleet-to-graph-info cache map, which is unchanged by the call. -/
theorem C5_load_graph_info_amended (s : RmfPanel) (fleet : String) :
    (load_fleet_graph_info s fleet = none ↔
      lookupAssoc fleet s.map_fleet_to_graph_info = none ∧
      lookupAssoc fleet s.graph_config = none) ∧
    (load_fleet_graph_info_call s fleet).2.map_fleet_to_graph_info =
      s.map_fleet_to_graph_info := by
  constructor
  · unfold load_fleet_graph_info
    cases h : lookupAssoc fleet s.map_fleet_to_graph_info <;> simp [h]
  · rfl

/-- Witness for C5 (amended), evaluated at `configOnlyPanel`: the unknown
fleet `missing` yields an empty optional, and the call leaves the cache
map unchanged. -/
theorem C5_load_graph_info_amended_witness :
    (load_fleet_graph_info configOnlyPanel "missing" = none ↔
      lookupAssoc "missing" configOnlyPanel.map_fleet_to_graph_info = none ∧
      lookupAssoc "missing" configOnlyPanel.graph_config = none) ∧
    (load_fleet_graph_info_call configOnlyPanel
      "missing").2.map_fleet_to_graph_info =
      configOnlyPanel.map_fleet_to_graph_info :=
  C5_load_graph_info_amended configOnlyPanel "missing"

/-- C8: for every fleet, the workcells-only option switches the
end-waypoint selector's contents between all waypoints of the fleet's
graph and only the workcell-flagged waypoints, and when graph info for the
fleet is absent the rebuild falls back to an empty list (the rebuild is a
total function — it never throws). -/
theorem C8_workcell_toggle (s : RmfPanel) (fleet : String) :
    (load_fleet_graph_info s fleet = none →
      update_end_waypoint_selector s fleet true = [] ∧
      update_end_waypoint_selector s fleet false = []) ∧
    (∀ gi, load_fleet_graph_info s fleet = some gi →
      update_end_waypoint_selector s fleet false = gi.waypoints ∧
      update_end_waypoint_selector s fleet true =
        gi.waypoints.filter (fun w => waypoint_has_workcell w gi)) := by
  constructor
  · intro h
    constructor <;> simp [update_end_waypoint_selector, h]
  · intro gi h
    constructor <;> simp [update_end_waypoint_selector, h]

/-- Witness for C8: for fleet `tinyRobot` the toggle switches the selector
between all three waypoints and just the workcell `pantry`; for the
unknown fleet `missing` both settings yield the empty fallback. -/
theorem C8_workcell_toggle_witness :
    update_end_waypoint_selector configOnlyPanel "tinyRobot" false =
      ["north", "south", "pantry"] ∧
    update_end_waypoint_selector configOnlyPanel "tinyRobot" true = ["pantry"] ∧
    update_end_waypoint_selector configOnlyPanel "missing" true = [] ∧
    update_end_waypoint_selector configOnlyPanel "missing" false = [] := by
  refine ⟨?_, ?_, ?_, ?_⟩
  · exact ((C8_workcell_toggle configOnlyPanel "tinyRobot").2 exGraphInfo rfl).1
  · rw [((C8_workcell_toggle configOnlyPanel "tinyRobot").2 exGraphInfo rfl).2]
    rfl
  · exact ((C8_workcell_toggle configOnlyPanel "missing").1 rfl).1
  · exact ((C8_workcell_toggle configOnlyPanel "missing").1 rfl).2

/-- C9: `pause_robot()` and `resume_robot()` with no fleet or robot
selected are no-ops: the panel state is unchanged, no ModeRequest is
published, and only a user-visible report is produced. -/
theorem C9_pause_resume_noop (s : RmfPanel)
    (h : s.selected_fleet = none ∨ s.selected_robot = none) :
    (pause_robot s).1 = s ∧ (pause_robot s).2.1 = [] ∧
    (resume_robot s).1 = s ∧ (resume_robot s).2.1 = [] := by
  cases hf : s.selected_fleet with
  | none =>
    cases hr : s.selected_robot <;>
      simp [pause_robot, resume_robot, hf, hr]
  | some f =>
    cases hr : s.selected_robot with
    | none => simp [pause_robot, resume_robot, hf, hr]
    | some r =>
      rw [hf, hr] at h
      rcases h with h | h <;> cases h

/-- Witness for C9: the initial panel has no selection; pause and resume
leave it unchanged and publish no mode request. -/
theorem C9_pause_resume_noop_witness :
    (pause_robot initial_panel).1 = initial_panel ∧
    (pause_robot initial_panel).2.1 = [] ∧
    (resume_robot initial_panel).1 = initial_panel ∧
    (resume_robot initial_panel).2.1 = [] :=
  C9_pause_resume_noop initial_panel (Or.inl rfl)

/-- C10: `load_fleet_graph_info` is declared `const`, so its shallow
embedding is a pure function of the panel: a call leaves the entire panel
state unchanged — in particular the fleet-to-graph-info cache map —
whether the lookup succeeds or fails. -/
theorem C10_load_graph_info_const (s : RmfPanel) (fleet : String) :
    (load_fleet_graph_info_call s fleet).2 = s ∧
    (load_fleet_graph_info_call s fleet).2.map_fleet_to_graph_info =
      s.map_fleet_to_graph_info :=
  ⟨rfl, rfl⟩

end RmfRvizPlugin
